import Mathlib

/-! Todo CRUD API (`src/server.js`)

A shallow embedding of the request handlers of `server.js` and of the JavaScript
built-ins they call, followed by theorems about the stored collection.

* JavaScript values that can reach the handlers (parsed JSON, or an absent
  property) are `JSVal`.
* The data file `todos.json` holds a JSON array of objects and is a
  `List Todo`; `readTodos` returns it, and a handler's `Outcome.written` is the
  argument of its `writeTodos` call, if it makes one. File-system operations are
  taken to succeed, and `JSON.stringify` followed by `JSON.parse` returns the
  records it was given.
* `Date.now()` and `new Date()` are inputs of the handlers: each call site has
  its own clock reading.
-/

namespace TodoApi

/-! ## JavaScript values and built-ins -/

/-- A JavaScript value as the handlers can see it: `undefined` (an absent
property), or a JSON value. Objects and arrays are `composite`; the handlers
never look inside one held by a record field, the code number stands for its
content. Numbers are the integer-valued ones: the handlers only test a number
for being zero. -/
inductive JSVal where
  | undefined
  | null
  | bool (b : Bool)
  | num (n : Int)
  | str (s : String)
  | composite (code : Nat)
  deriving DecidableEq

/-- The conversion `ToBoolean`, used by `!v`, `v ? a : b` and `if (v)`. -/
def truthy : JSVal → Bool
  | .undefined => false
  | .null => false
  | .bool b => b
  | .num n => n != 0
  | .str s => s != ""
  | .composite _ => true

/-- The result of the `typeof` operator. -/
def typeOf : JSVal → String
  | .undefined => "undefined"
  | .null => "object"
  | .bool _ => "boolean"
  | .num _ => "number"
  | .str _ => "string"
  | .composite _ => "object"

/-- The characters `String.prototype.trim` strips: ECMAScript `WhiteSpace`
(tab, VT, FF, space, NBSP, ZWNBSP and the Unicode space separators) and
`LineTerminator` (LF, CR, LS, PS). -/
def isJSWhiteSpace (c : Char) : Bool :=
  c.toNat == 0x09 || c.toNat == 0x0A || c.toNat == 0x0B || c.toNat == 0x0C ||
  c.toNat == 0x0D || c.toNat == 0x20 || c.toNat == 0xA0 || c.toNat == 0x1680 ||
  (0x2000 ≤ c.toNat && c.toNat ≤ 0x200A) || c.toNat == 0x2028 ||
  c.toNat == 0x2029 || c.toNat == 0x202F || c.toNat == 0x205F ||
  c.toNat == 0x3000 || c.toNat == 0xFEFF

/-- Trimming of a character list: leading white space removed, then trailing. -/
def trimChars (cs : List Char) : List Char :=
  (cs.dropWhile isJSWhiteSpace).rdropWhile isJSWhiteSpace

/-- The built-in `String.prototype.trim`. -/
def jsTrim (s : String) : String :=
  ⟨trimChars s.data⟩

/-- The method call `v.trim()`: the trimmed string for a string, and a thrown
`TypeError` (`none`) for every other value, none of which has a callable
`trim`. -/
def callTrim : JSVal → Option JSVal
  | .str s => some (.str (jsTrim s))
  | _ => none

/-- The expression `v.trim().length`, evaluated after `typeof v` was found to
be `'string'`; for another value the call throws. -/
def trimLength : JSVal → Option Nat
  | .str s => some (jsTrim s).length
  | _ => none

/-- The decimal digits of `n`, left-padded with zeros to `width` digits. -/
def padZero (width n : Nat) : String :=
  ⟨List.replicate (width - (Nat.toDigits 10 n).length) '0' ++ Nat.toDigits 10 n⟩

/-- The year of day number `days` (days since 1970-01-01), with the month and
the day of the month, in the proleptic Gregorian calendar. -/
def civilFromDays (days : Nat) : Nat × Nat × Nat :=
  let z := days + 719468
  let era := z / 146097
  let doe := z % 146097
  let yoe := (doe - doe / 1460 + doe / 36524 - doe / 146096) / 365
  let doy := doe - (365 * yoe + yoe / 4 - yoe / 100)
  let mp := (5 * doy + 2) / 153
  let d := doy - (153 * mp + 2) / 5 + 1
  let m := if mp < 10 then mp + 3 else mp - 9
  let y := if m ≤ 2 then yoe + era * 400 + 1 else yoe + era * 400
  (y, m, d)

/-- The built-in `Date.prototype.toISOString` at a time value of `ms`
milliseconds since the epoch: `YYYY-MM-DDTHH:mm:ss.sssZ` in UTC, the year
written `+YYYYYY` beyond 9999. -/
def toISOString (ms : Nat) : String :=
  let ymd := civilFromDays (ms / 86400000)
  let t := ms % 86400000
  let year := if ymd.1 ≤ 9999 then padZero 4 ymd.1 else "+" ++ padZero 6 ymd.1
  year ++ "-" ++ padZero 2 ymd.2.1 ++ "-" ++ padZero 2 ymd.2.2 ++ "T" ++
    padZero 2 (t / 3600000) ++ ":" ++ padZero 2 (t / 60000 % 60) ++ ":" ++
    padZero 2 (t / 1000 % 60) ++ "." ++ padZero 3 (t % 1000) ++ "Z"

/-- The expression `Date.now().toString()` at clock reading `ms`. -/
def nowToString (ms : Nat) : String :=
  Nat.repr ms

/-! ## Data model -/

/-- A todo record: an element of the JSON array in the data file. A property
the object lacks is `undefined`. Properties other than these six are never
read by the handlers, which carry them along unchanged, and are left out. -/
structure Todo where
  id : JSVal
  title : JSVal
  description : JSVal
  completed : JSVal
  createdAt : JSVal
  updatedAt : JSVal
  deriving DecidableEq

/-- The properties of `req.body` that the handlers destructure; a property the
body lacks is `undefined`. -/
structure Body where
  title : JSVal
  description : JSVal
  completed : JSVal
  deriving DecidableEq

/-- The response a handler sends. -/
inductive Response where
  /-- Status 200 with `{success: true, data: todos, count}`, from `GET /todos`. -/
  | listed (data : List Todo) (count : Nat)
  /-- Status 201 with `{success: true, data: newTodo, message}`, from `POST /todos`. -/
  | created (data : Todo)
  /-- Status 200 with `{success: true, data, message}`, from `PUT /todos/:id`. -/
  | updated (data : Todo)
  /-- Status 200 with `{success: true, data: deletedTodo, message}`, from `DELETE /todos/:id`. -/
  | deleted (data : Todo)
  /-- Status 400 with `{success: false, error: 'Validation failed', details}`. -/
  | validationFailed (details : List String)
  /-- Status 404 with `{success: false, error: 'Todo not found'}`. -/
  | notFound
  /-- Status 500 with `{success: false, error}`, sent from a `catch` block. -/
  | failed (error : String)
  deriving DecidableEq

/-- The HTTP status code of a response. -/
def Response.status : Response → Nat
  | .listed _ _ => 200
  | .created _ => 201
  | .updated _ => 200
  | .deleted _ => 200
  | .validationFailed _ => 400
  | .notFound => 404
  | .failed _ => 500

/-- What a handler did: the response it sent and the collection it passed to
`writeTodos`, `none` when it wrote nothing. -/
structure Outcome where
  response : Response
  written : Option (List Todo)
  deriving DecidableEq

/-- The content of the data file after a handler ran on `file`. -/
def persisted (file : List Todo) (o : Outcome) : List Todo :=
  o.written.getD file

/-! ## Helpers of `server.js` -/

def titleMessage : String := "Title is required and must be a non-empty string"

def completedMessage : String := "Completed must be a boolean value"

/-- The function `validateTodo`. -/
def validateTodo (todo : Todo) : List String :=
  let errors : List String := []
  let errors :=
    if !truthy todo.title || typeOf todo.title != "string" || trimLength todo.title == some 0 then
      errors ++ [titleMessage]
    else errors
  let errors :=
    if todo.completed != .undefined && typeOf todo.completed != "boolean" then
      errors ++ [completedMessage]
    else errors
  errors

/-- The call `todos.findIndex(todo => todo.id === id)` with `id` a string: the
index of the first record whose `id` is that string, `none` for `-1`. -/
def findIndex (id : String) : List Todo → Option Nat
  | [] => none
  | todo :: rest =>
    if todo.id = .str id then some 0 else (findIndex id rest).map (· + 1)

/-! ## Request handlers -/

/-- The clock readings of one `POST /todos`: `Date.now()` for the id, then the
two `new Date()` of `createdAt` and `updatedAt`. -/
structure CreateClock where
  idNow : Nat
  createdNow : Nat
  updatedNow : Nat
  deriving DecidableEq

/-- The handler of `GET /todos`. -/
def getTodos (file : List Todo) : Outcome :=
  let todos := file
  { response := .listed todos todos.length, written := none }

/-- The object `todoData` of `POST /todos`: the destructured body, `completed`
defaulting to `false` when it is `undefined`. -/
def todoData (body : Body) : Todo :=
  { id := .undefined,
    title := body.title,
    description := body.description,
    completed := if body.completed = .undefined then .bool false else body.completed,
    createdAt := .undefined,
    updatedAt := .undefined }

/-- The object literal `newTodo` of `POST /todos`, `none` when one of its
`trim()` calls throws a `TypeError`. Its `completed` is the destructured
variable, the one `todoData` holds. -/
def newTodo (clock : CreateClock) (body : Body) : Option Todo :=
  match callTrim body.title with
  | none => none
  | some trimmedTitle =>
    match (if truthy body.description then callTrim body.description else some (.str "")) with
    | none => none
    | some newDescription =>
      some
        { id := .str (nowToString clock.idNow),
          title := trimmedTitle,
          description := newDescription,
          completed := (todoData body).completed,
          createdAt := .str (toISOString clock.createdNow),
          updatedAt := .str (toISOString clock.updatedNow) }

/-- The handler of `POST /todos`. A `TypeError` thrown while `newTodo` is built
is caught and answered with `500`, before anything is written. -/
def postTodos (clock : CreateClock) (body : Body) (file : List Todo) : Outcome :=
  let validationErrors := validateTodo (todoData body)
  if validationErrors.length > 0 then
    { response := .validationFailed validationErrors, written := none }
  else
    let todos := file
    match newTodo clock body with
    | none => { response := .failed "Failed to create todo", written := none }
    | some created => { response := .created created, written := some (todos ++ [created]) }

/-- The object `{ ...todos[todoIndex], ...updateData }`: the stored record
overlaid with the properties of the body that are not `undefined`. -/
def mergeUpdate (old : Todo) (body : Body) : Todo :=
  { old with
    title := if body.title != .undefined then body.title else old.title,
    description := if body.description != .undefined then body.description else old.description,
    completed := if body.completed != .undefined then body.completed else old.completed }

/-- The statement `if (v) v = v.trim()` applied to a property value. -/
def trimIfTruthy (v : JSVal) : Option JSVal :=
  if truthy v then callTrim v else some v

/-- The record that `PUT /todos/:id` stores at the found index: the merged
object with `updatedAt` refreshed, then `title` and `description` trimmed when
truthy; `none` when a `trim()` call throws a `TypeError`. -/
def applyUpdate (now : Nat) (old : Todo) (body : Body) : Option Todo :=
  let updated : Todo := { mergeUpdate old body with updatedAt := .str (toISOString now) }
  match trimIfTruthy updated.title with
  | none => none
  | some newTitle =>
    match trimIfTruthy updated.description with
    | none => none
    | some newDescription =>
      some { updated with title := newTitle, description := newDescription }

/-- The handler of `PUT /todos/:id`; `now` is the reading of its `new Date()`.
A `TypeError` thrown by a `trim()` call is caught and answered with `500`,
before anything is written. The index `findIndex` returns is within the array
(`findIndex_some`), so `todos[todoIndex]` is always a record. -/
def putTodos (now : Nat) (id : String) (body : Body) (file : List Todo) : Outcome :=
  let todos := file
  match findIndex id todos with
  | none => { response := .notFound, written := none }
  | some todoIndex =>
    match todos[todoIndex]? with
    | none => { response := .failed "Failed to update todo", written := none }
    | some old =>
      let validationErrors := validateTodo (mergeUpdate old body)
      if validationErrors.length > 0 then
        { response := .validationFailed validationErrors, written := none }
      else
        match applyUpdate now old body with
        | none => { response := .failed "Failed to update todo", written := none }
        | some result =>
          { response := .updated result, written := some (todos.set todoIndex result) }

/-- The handler of `DELETE /todos/:id`: `splice(todoIndex, 1)` removes the
record at the found index and returns it. -/
def deleteTodos (id : String) (file : List Todo) : Outcome :=
  let todos := file
  match findIndex id todos with
  | none => { response := .notFound, written := none }
  | some todoIndex =>
    match todos[todoIndex]? with
    | none => { response := .failed "Failed to delete todo", written := none }
    | some deletedTodo =>
      { response := .deleted deletedTodo, written := some (todos.eraseIdx todoIndex) }

/-- A request to one of the four `/todos` routes, with the clock readings its
handler takes. -/
inductive Request where
  | list
  | create (clock : CreateClock) (body : Body)
  | update (now : Nat) (id : String) (body : Body)
  | delete (id : String)
  deriving DecidableEq

/-- The handler the router runs for a request. -/
def handle : Request → List Todo → Outcome
  | .list, file => getTodos file
  | .create clock body, file => postTodos clock body file
  | .update now id body, file => putTodos now id body file
  | .delete id, file => deleteTodos id file

/-- The collections the server persists: the empty array that
`initializeDataFile` writes on first run, and the content of the file after
each handled request. -/
inductive Persisted : List Todo → Prop where
  | initial : Persisted []
  | step (req : Request) (file : List Todo) :
      Persisted file → Persisted (persisted file (handle req file))

/-! ## Properties named by the specification -/

/-- A title that violates the title rule: missing, not a string, or empty
after trimming. -/
def titleViolated : JSVal → Bool
  | .str s => jsTrim s == ""
  | _ => true

/-- A `completed` that violates the boolean rule: present and not a boolean. -/
def completedViolated : JSVal → Bool
  | .undefined => false
  | .bool _ => false
  | _ => true

/-- A stored record whose title is a string that is non-empty after trimming. -/
def hasValidTitle (r : Todo) : Bool :=
  !titleViolated r.title

/-- A stored record whose `completed` is a boolean. -/
def hasBooleanCompleted (r : Todo) : Bool :=
  match r.completed with
  | .bool _ => true
  | _ => false

/-- A stored record that meets the title rule and the boolean rule. -/
def validRecord (r : Todo) : Bool :=
  hasValidTitle r && hasBooleanCompleted r

/-- A stored record whose description is a string equal to its own trim. -/
def hasTrimmedDescription (r : Todo) : Bool :=
  match r.description with
  | .str d => jsTrim d == d
  | _ => false

/-- No two records of the collection share an `id`. -/
def idsDistinct (todos : List Todo) : Prop :=
  (todos.map Todo.id).Nodup

instance (todos : List Todo) : Decidable (idsDistinct todos) := by
  unfold idsDistinct; infer_instance

/-- The shape of a record as the handlers write it: the title a non-empty
trimmed string, `completed` a boolean, the description a trimmed string or a
falsy value. -/
def writtenShape (r : Todo) : Bool :=
  (match r.title with
   | .str s => s != "" && jsTrim s == s
   | _ => false) &&
  (match r.completed with
   | .bool _ => true
   | _ => false) &&
  (match r.description with
   | .str d => jsTrim d == d
   | v => !truthy v)

/-! ## Sample records and bodies -/

/-- A stored record with id `"1"`. -/
def sampleTodo : Todo :=
  { id := .str "1", title := .str "Buy milk", description := .str "",
    completed := .bool false,
    createdAt := .str "2023-11-14T22:13:20.000Z", updatedAt := .str "2023-11-14T22:13:20.000Z" }

/-- A stored record with id `"abc"`. -/
def lowerCaseTodo : Todo :=
  { sampleTodo with id := .str "abc" }

/-- The body `{title: "", completed: "yes"}`. -/
def twoViolationsBody : Body :=
  { title := .str "", description := .undefined, completed := .str "yes" }

/-- The body `{title: "  "}`. -/
def blankTitleBody : Body :=
  { title := .str "  ", description := .undefined, completed := .undefined }

/-- The record `sampleTodo` after `PUT /todos/1` with `{completed: true}` at
clock reading `1700000000000`. -/
def completedSampleTodo : Todo :=
  { sampleTodo with completed := .bool true, updatedAt := .str "2023-11-14T22:13:20.000Z" }

/-- The body `{title: " Buy milk "}`. -/
def paddedTitleBody : Body :=
  { title := .str " Buy milk ", description := .undefined, completed := .undefined }

/-- The body `{completed: true}`. -/
def onlyCompletedBody : Body :=
  { title := .undefined, description := .undefined, completed := .bool true }

/-- The body `{title: "Walk dog"}`. -/
def walkDogBody : Body :=
  { title := .str "Walk dog", description := .undefined, completed := .undefined }

/-- The body `{title: "Buy milk", description: 5}`. -/
def numberDescriptionBody : Body :=
  { title := .str "Buy milk", description := .num 5, completed := .undefined }

/-- The body `{description: null}`. -/
def nullDescriptionBody : Body :=
  { title := .undefined, description := .null, completed := .undefined }

/-- The clock of a `POST /todos` handled wholly within millisecond `ms`. -/
def clockAt (ms : Nat) : CreateClock :=
  { idNow := ms, createdNow := ms, updatedNow := ms }

/-- The clock of a `POST /todos` during which the millisecond changes between
the two `new Date()` calls. -/
def tickingClock : CreateClock :=
  { idNow := 1700000000000, createdNow := 1700000000000, updatedNow := 1700000000001 }

/-- The record that `POST /todos` builds from `{title: " Buy milk "}` at
millisecond `1700000000000`. -/
def firstCreated : Todo :=
  { id := .str "1700000000000", title := .str "Buy milk", description := .str "",
    completed := .bool false,
    createdAt := .str "2023-11-14T22:13:20.000Z", updatedAt := .str "2023-11-14T22:13:20.000Z" }

/-- The record that `POST /todos` builds from `{title: "Walk dog"}` at
millisecond `1700000000000`. -/
def secondCreated : Todo :=
  { firstCreated with title := .str "Walk dog" }

/-- The record that `POST /todos` builds from `{title: " Buy milk "}` under
`tickingClock`. -/
def tickCreated : Todo :=
  { firstCreated with updatedAt := .str "2023-11-14T22:13:20.001Z" }

/-- The data file after `POST /todos {title: " Buy milk "}` on the empty
collection at millisecond `1700000000000`. -/
def afterFirstCreate : List Todo :=
  persisted [] (postTodos (clockAt 1700000000000) paddedTitleBody [])

/-- The data file after a second `POST /todos`, handled at the same
millisecond as the first. -/
def afterSecondCreate : List Todo :=
  persisted afterFirstCreate (postTodos (clockAt 1700000000000) walkDogBody afterFirstCreate)

/-- The data file after `DELETE /todos/1700000000000` on `afterSecondCreate`. -/
def afterFirstDelete : List Todo :=
  persisted afterSecondCreate (deleteTodos "1700000000000" afterSecondCreate)

/-! ## Lemmas on the built-ins -/

theorem trimChars_idem (cs : List Char) : trimChars (trimChars cs) = trimChars cs := by
  unfold trimChars
  have hpre : (cs.dropWhile isJSWhiteSpace).rdropWhile isJSWhiteSpace <+:
      cs.dropWhile isJSWhiteSpace := List.rdropWhile_prefix _ _
  have hfront : List.dropWhile isJSWhiteSpace
      ((cs.dropWhile isJSWhiteSpace).rdropWhile isJSWhiteSpace) =
      (cs.dropWhile isJSWhiteSpace).rdropWhile isJSWhiteSpace := by
    generalize hb : (cs.dropWhile isJSWhiteSpace).rdropWhile isJSWhiteSpace = b at hpre
    cases b with
    | nil => rfl
    | cons x t =>
      obtain ⟨r, hr⟩ := hpre
      have hne : 0 < (cs.dropWhile isJSWhiteSpace).length := by
        rw [← hr]; simp
      have hx := List.dropWhile_get_zero_not isJSWhiteSpace cs hne
      have h0 : (cs.dropWhile isJSWhiteSpace).get ⟨0, hne⟩ = x := by
        simp [← hr]
      rw [h0] at hx
      simp [List.dropWhile, hx]
  rw [hfront, List.rdropWhile_idempotent]

theorem jsTrim_idem (s : String) : jsTrim (jsTrim s) = jsTrim s := by
  simp [jsTrim, trimChars_idem]

theorem jsTrim_empty : jsTrim "" = "" := by decide

theorem string_length_eq_zero (s : String) : s.length = 0 ↔ s = "" := by
  cases s with
  | mk l =>
    constructor
    · intro h
      have : l = [] := List.length_eq_zero.mp h
      subst this; rfl
    · intro h
      have : l = [] := by
        have := congrArg String.data h
        simpa using this
      subst this; rfl

theorem jsTrim_ne_empty_imp {s : String} (h : jsTrim s ≠ "") : s ≠ "" := by
  intro hs; subst hs; exact h jsTrim_empty

/-- The function `validateTodo` reports the title rule and the boolean rule
independently of each other, title first. -/
theorem validateTodo_eq (todo : Todo) :
    validateTodo todo =
      (if titleViolated todo.title then [titleMessage] else []) ++
      (if completedViolated todo.completed then [completedMessage] else []) := by
  have ht : (!truthy todo.title || typeOf todo.title != "string" ||
      trimLength todo.title == some 0) = titleViolated todo.title := by
    cases todo.title with
    | str s =>
      by_cases h : jsTrim s = ""
      · simp [truthy, typeOf, trimLength, titleViolated, h]
      · have h1 : (s != "") = true := bne_iff_ne.mpr (jsTrim_ne_empty_imp h)
        have h2 : ((jsTrim s).length == 0) = false := by
          simpa [string_length_eq_zero] using h
        have h3 : (jsTrim s == "") = false := by simpa using h
        simp [truthy, typeOf, trimLength, titleViolated, h1, h2, h3]
    | _ => simp [truthy, typeOf, trimLength, titleViolated]
  have hc : (todo.completed != .undefined && typeOf todo.completed != "boolean") =
      completedViolated todo.completed := by
    cases todo.completed <;> simp [typeOf, completedViolated]
  unfold validateTodo
  simp only [ht, hc]
  cases titleViolated todo.title <;> cases completedViolated todo.completed <;> simp


/-! ## Lemmas on the helpers and handlers -/

theorem validateTodo_nil_iff (todo : Todo) :
    validateTodo todo = [] ↔
      titleViolated todo.title = false ∧ completedViolated todo.completed = false := by
  rw [validateTodo_eq]
  cases titleViolated todo.title <;> cases completedViolated todo.completed <;> simp

theorem validateTodo_length_pos (todo : Todo) :
    (validateTodo todo).length > 0 ↔ validateTodo todo ≠ [] := by
  cases validateTodo todo <;> simp

theorem titleViolated_false {v : JSVal} (h : titleViolated v = false) :
    ∃ s, v = .str s ∧ jsTrim s ≠ "" := by
  cases v with
  | str s => exact ⟨s, rfl, by simpa [titleViolated] using h⟩
  | _ => simp [titleViolated] at h

theorem findIndex_none {id : String} {todos : List Todo} :
    findIndex id todos = none ↔ ∀ r ∈ todos, r.id ≠ .str id := by
  induction todos with
  | nil => simp [findIndex]
  | cons t rest ih =>
    by_cases h : t.id = .str id
    · simp [findIndex, h]
    · simp [findIndex, h, ih]

theorem findIndex_some {id : String} {todos : List Todo} {i : Nat}
    (h : findIndex id todos = some i) :
    ∃ old, todos[i]? = some old ∧ old.id = .str id ∧
      ∀ j, j < i → ∀ r, todos[j]? = some r → r.id ≠ .str id := by
  induction todos generalizing i with
  | nil => simp [findIndex] at h
  | cons t rest ih =>
    by_cases ht : t.id = .str id
    · simp [findIndex, ht] at h
      subst h
      exact ⟨t, by simp, ht, by intro j hj; omega⟩
    · simp [findIndex, ht] at h
      obtain ⟨k, hk, rfl⟩ := h
      obtain ⟨old, ho, hid, hlt⟩ := ih hk
      refine ⟨old, by simpa using ho, hid, ?_⟩
      intro j hj r hr
      cases j with
      | zero =>
        simp at hr
        subst hr
        exact ht
      | succ j =>
        simp at hr
        exact hlt j (by omega) r hr

theorem findIndex_of_mem {id : String} {todos : List Todo}
    (h : ∃ r ∈ todos, r.id = .str id) : ∃ i, findIndex id todos = some i := by
  cases hf : findIndex id todos with
  | some i => exact ⟨i, rfl⟩
  | none =>
    obtain ⟨r, hr, hid⟩ := h
    exact absurd hid (findIndex_none.mp hf r hr)

theorem validateTodo_not_pos {todo : Todo} (h : ¬ (validateTodo todo).length > 0) :
    titleViolated todo.title = false ∧ completedViolated todo.completed = false := by
  apply (validateTodo_nil_iff todo).mp
  cases hv : validateTodo todo with
  | nil => rfl
  | cons a l => simp [hv] at h

/-- The fields of a `newTodo` that was built without a `TypeError`. -/
theorem newTodo_some {clock : CreateClock} {body : Body} {r : Todo}
    (h : newTodo clock body = some r) :
    callTrim body.title = some r.title ∧
    (if truthy body.description then callTrim body.description else some (.str "")) =
      some r.description ∧
    r.completed = (todoData body).completed ∧
    r.id = .str (nowToString clock.idNow) ∧
    r.createdAt = .str (toISOString clock.createdNow) ∧
    r.updatedAt = .str (toISOString clock.updatedNow) := by
  unfold newTodo at h
  cases h1 : callTrim body.title with
  | none => simp [h1] at h
  | some t =>
    cases h2 : (if truthy body.description then callTrim body.description
        else some (.str "")) with
    | none => simp [h1, h2] at h
    | some d =>
      simp only [h1, h2, Option.some.injEq] at h
      subst h
      exact ⟨rfl, rfl, rfl, rfl, rfl, rfl⟩

theorem postTodos_invalid {clock : CreateClock} {body : Body} {file : List Todo}
    (hv : (validateTodo (todoData body)).length > 0) :
    postTodos clock body file =
      { response := .validationFailed (validateTodo (todoData body)), written := none } := by
  simp only [postTodos, if_pos hv]

theorem postTodos_valid {clock : CreateClock} {body : Body} {file : List Todo}
    (hv : ¬ (validateTodo (todoData body)).length > 0) :
    postTodos clock body file =
      match newTodo clock body with
      | none => { response := .failed "Failed to create todo", written := none }
      | some created => { response := .created created, written := some (file ++ [created]) } := by
  simp only [postTodos, if_neg hv]

/-- What a `201` of `POST /todos` implies about the body, the record and the
write. -/
theorem postTodos_created {clock : CreateClock} {body : Body} {file : List Todo} {r : Todo}
    (h : (postTodos clock body file).response = .created r) :
    titleViolated body.title = false ∧
    completedViolated (todoData body).completed = false ∧
    newTodo clock body = some r ∧
    (postTodos clock body file).written = some (file ++ [r]) := by
  by_cases hv : (validateTodo (todoData body)).length > 0
  · rw [postTodos_invalid hv] at h
    simp at h
  · obtain ⟨ht, hc⟩ := validateTodo_not_pos hv
    rw [postTodos_valid hv] at h ⊢
    cases hn : newTodo clock body with
    | none => simp [hn] at h
    | some c =>
      simp only [hn, Response.created.injEq] at h ⊢
      subst h
      exact ⟨ht, hc, rfl, rfl⟩

theorem postTodos_written {clock : CreateClock} {body : Body} {file todos : List Todo}
    (h : (postTodos clock body file).written = some todos) :
    ∃ r, (postTodos clock body file).response = .created r := by
  by_cases hv : (validateTodo (todoData body)).length > 0
  · rw [postTodos_invalid hv] at h
    simp at h
  · rw [postTodos_valid hv] at h ⊢
    cases hn : newTodo clock body with
    | none => simp [hn] at h
    | some c => exact ⟨c, rfl⟩

/-- The fields of an updated record that was built without a `TypeError`. -/
theorem applyUpdate_some {now : Nat} {old : Todo} {body : Body} {r : Todo}
    (h : applyUpdate now old body = some r) :
    trimIfTruthy (mergeUpdate old body).title = some r.title ∧
    trimIfTruthy (mergeUpdate old body).description = some r.description ∧
    r.completed = (mergeUpdate old body).completed ∧
    r.id = old.id ∧ r.createdAt = old.createdAt ∧
    r.updatedAt = .str (toISOString now) := by
  unfold applyUpdate at h
  simp only at h
  cases h1 : trimIfTruthy (mergeUpdate old body).title with
  | none => simp [h1] at h
  | some t =>
    cases h2 : trimIfTruthy (mergeUpdate old body).description with
    | none => simp [h1, h2] at h
    | some d =>
      simp only [h1, h2, Option.some.injEq] at h
      subst h
      exact ⟨rfl, rfl, rfl, rfl, rfl, rfl⟩

theorem putTodos_notFound {now : Nat} {id : String} {body : Body} {file : List Todo}
    (hf : findIndex id file = none) :
    putTodos now id body file = { response := .notFound, written := none } := by
  simp only [putTodos, hf]

theorem putTodos_invalid {now : Nat} {id : String} {body : Body} {file : List Todo}
    {i : Nat} {old : Todo} (hf : findIndex id file = some i) (ho : file[i]? = some old)
    (hv : (validateTodo (mergeUpdate old body)).length > 0) :
    putTodos now id body file =
      { response := .validationFailed (validateTodo (mergeUpdate old body)),
        written := none } := by
  simp only [putTodos, hf, ho, if_pos hv]

theorem putTodos_valid {now : Nat} {id : String} {body : Body} {file : List Todo}
    {i : Nat} {old : Todo} (hf : findIndex id file = some i) (ho : file[i]? = some old)
    (hv : ¬ (validateTodo (mergeUpdate old body)).length > 0) :
    putTodos now id body file =
      match applyUpdate now old body with
      | none => { response := .failed "Failed to update todo", written := none }
      | some result => { response := .updated result, written := some (file.set i result) } := by
  simp only [putTodos, hf, ho, if_neg hv]

theorem deleteTodos_found {id : String} {file : List Todo}
    {i : Nat} {old : Todo} (hf : findIndex id file = some i) (ho : file[i]? = some old) :
    deleteTodos id file = { response := .deleted old, written := some (file.eraseIdx i) } := by
  simp only [deleteTodos, hf, ho]

theorem deleteTodos_notFound {id : String} {file : List Todo}
    (hf : findIndex id file = none) :
    deleteTodos id file = { response := .notFound, written := none } := by
  simp only [deleteTodos, hf]

/-- What a `200` of `PUT /todos/:id` implies about the stored record, the
body, the returned record and the write. -/
theorem putTodos_updated {now : Nat} {id : String} {body : Body} {file : List Todo} {r : Todo}
    (h : (putTodos now id body file).response = .updated r) :
    ∃ i old, findIndex id file = some i ∧ file[i]? = some old ∧
      titleViolated (mergeUpdate old body).title = false ∧
      completedViolated (mergeUpdate old body).completed = false ∧
      applyUpdate now old body = some r ∧
      (putTodos now id body file).written = some (file.set i r) := by
  cases hf : findIndex id file with
  | none => simp [putTodos_notFound hf] at h
  | some i =>
    obtain ⟨old, ho, -, -⟩ := findIndex_some hf
    by_cases hv : (validateTodo (mergeUpdate old body)).length > 0
    · rw [putTodos_invalid hf ho hv] at h
      simp at h
    · obtain ⟨ht, hc⟩ := validateTodo_not_pos hv
      rw [putTodos_valid hf ho hv] at h ⊢
      cases ha : applyUpdate now old body with
      | none => simp [ha] at h
      | some c =>
        simp only [ha, Response.updated.injEq] at h ⊢
        subst h
        exact ⟨i, old, rfl, ho, ht, hc, ha, rfl⟩

/-- A handler writes only together with its success response. -/
theorem putTodos_written {now : Nat} {id : String} {body : Body} {file todos : List Todo}
    (h : (putTodos now id body file).written = some todos) :
    ∃ r, (putTodos now id body file).response = .updated r := by
  cases hf : findIndex id file with
  | none => simp [putTodos_notFound hf] at h
  | some i =>
    obtain ⟨old, ho, -, -⟩ := findIndex_some hf
    by_cases hv : (validateTodo (mergeUpdate old body)).length > 0
    · rw [putTodos_invalid hf ho hv] at h
      simp at h
    · rw [putTodos_valid hf ho hv] at h ⊢
      cases ha : applyUpdate now old body with
      | none => simp [ha] at h
      | some c => exact ⟨c, rfl⟩

/-- What a `200` of `DELETE /todos/:id` implies. -/
theorem deleteTodos_deleted {id : String} {file : List Todo} {r : Todo}
    (h : (deleteTodos id file).response = .deleted r) :
    ∃ i, findIndex id file = some i ∧ file[i]? = some r ∧
      (deleteTodos id file).written = some (file.eraseIdx i) := by
  cases hf : findIndex id file with
  | none => simp [deleteTodos_notFound hf] at h
  | some i =>
    obtain ⟨old, ho, -, -⟩ := findIndex_some hf
    rw [deleteTodos_found hf ho] at h ⊢
    simp only [Response.deleted.injEq] at h
    subst h
    exact ⟨i, rfl, ho, rfl⟩

theorem deleteTodos_written {id : String} {file todos : List Todo}
    (h : (deleteTodos id file).written = some todos) :
    ∃ i, findIndex id file = some i ∧ todos = file.eraseIdx i := by
  cases hf : findIndex id file with
  | none => simp [deleteTodos_notFound hf] at h
  | some i =>
    obtain ⟨old, ho, -, -⟩ := findIndex_some hf
    rw [deleteTodos_found hf ho] at h
    exact ⟨i, rfl, by simpa using h.symm⟩


theorem completed_bool_of {v : JSVal} (h1 : completedViolated v = false)
    (h2 : v ≠ .undefined) : ∃ b, v = .bool b := by
  cases v with
  | bool b => exact ⟨b, rfl⟩
  | undefined => exact absurd rfl h2
  | _ => simp [completedViolated] at h1

theorem trimIfTruthy_title {v : JSVal} (h : titleViolated v = false) :
    ∃ s, v = .str s ∧ jsTrim s ≠ "" ∧ trimIfTruthy v = some (.str (jsTrim s)) := by
  obtain ⟨s, hs, hne⟩ := titleViolated_false h
  subst hs
  have h1 : (s != "") = true := bne_iff_ne.mpr (jsTrim_ne_empty_imp hne)
  exact ⟨s, rfl, hne, by simp [trimIfTruthy, truthy, h1, callTrim]⟩

/-- Every record in the file after a request was in the file before it, or is
the record the request created or updated. -/
theorem mem_persisted_handle {req : Request} {file : List Todo} {r : Todo}
    (h : r ∈ persisted file (handle req file)) :
    r ∈ file ∨ (∃ clock body, req = .create clock body ∧
        (postTodos clock body file).response = .created r) ∨
      (∃ now id body, req = .update now id body ∧
        (putTodos now id body file).response = .updated r) := by
  unfold persisted at h
  cases hw : (handle req file).written with
  | none =>
    rw [hw] at h
    exact Or.inl h
  | some todos =>
    rw [hw] at h
    simp only [Option.getD_some] at h
    cases req with
    | list => simp [handle, getTodos] at hw
    | create clock body =>
      simp only [handle] at hw
      obtain ⟨c, hc⟩ := postTodos_written hw
      have hw2 := (postTodos_created hc).2.2.2
      rw [hw] at hw2
      simp only [Option.some.injEq] at hw2
      subst hw2
      rcases List.mem_append.mp h with h | h
      · exact Or.inl h
      · simp only [List.mem_singleton] at h
        subst h
        exact Or.inr (Or.inl ⟨clock, body, rfl, hc⟩)
    | update now id body =>
      simp only [handle] at hw
      obtain ⟨c, hc⟩ := putTodos_written hw
      obtain ⟨i, old, -, -, -, -, -, hw2⟩ := putTodos_updated hc
      rw [hw] at hw2
      simp only [Option.some.injEq] at hw2
      subst hw2
      rcases List.mem_or_eq_of_mem_set h with h | h
      · exact Or.inl h
      · subst h
        exact Or.inr (Or.inr ⟨now, id, body, rfl, hc⟩)
    | delete id =>
      simp only [handle] at hw
      obtain ⟨i, -, hw2⟩ := deleteTodos_written hw
      subst hw2
      exact Or.inl (List.mem_of_mem_eraseIdx h)

theorem writtenShape_iff (r : Todo) :
    writtenShape r = true ↔
      (∃ s, r.title = .str s ∧ s ≠ "" ∧ jsTrim s = s) ∧ (∃ b, r.completed = .bool b) ∧
      ((∃ d, r.description = .str d ∧ jsTrim d = d) ∨ truthy r.description = false) := by
  unfold writtenShape
  cases r.title <;> cases r.completed <;> cases r.description <;>
    simp [truthy]
  all_goals
    intro _ _ h
    subst h
    exact jsTrim_empty

theorem trimIfTruthy_description {v w : JSVal} (h : trimIfTruthy v = some w) :
    (∃ d, w = .str d ∧ jsTrim d = d) ∨ truthy w = false := by
  unfold trimIfTruthy at h
  by_cases ht : truthy v = true
  · rw [if_pos ht] at h
    cases v with
    | str s =>
      simp only [callTrim, Option.some.injEq] at h
      subst h
      exact Or.inl ⟨jsTrim s, rfl, jsTrim_idem s⟩
    | _ => simp [callTrim] at h
  · rw [if_neg ht] at h
    simp only [Option.some.injEq] at h
    subst h
    exact Or.inr (by simpa using ht)

/-- A record returned by a `201` has the shape the handlers write. -/
theorem created_shape {clock : CreateClock} {body : Body} {file : List Todo} {r : Todo}
    (h : (postTodos clock body file).response = .created r) : writtenShape r = true := by
  obtain ⟨ht, hc, hn, -⟩ := postTodos_created h
  obtain ⟨htitle, hdesc, hcomp, -, -, -⟩ := newTodo_some hn
  obtain ⟨s, hs, hne⟩ := titleViolated_false ht
  rw [hs] at htitle
  simp only [callTrim, Option.some.injEq] at htitle
  rw [writtenShape_iff]
  refine ⟨⟨jsTrim s, htitle.symm, hne, jsTrim_idem s⟩, ?_, ?_⟩
  · rw [hcomp]
    apply completed_bool_of hc
    simp only [todoData]
    split_ifs with hu
    · simp
    · exact hu
  · by_cases htr : truthy body.description = true
    · rw [if_pos htr] at hdesc
      exact @trimIfTruthy_description body.description r.description
        (by simp [trimIfTruthy, htr, hdesc])
    · rw [if_neg htr] at hdesc
      simp only [Option.some.injEq] at hdesc
      exact Or.inl ⟨"", hdesc.symm, jsTrim_empty⟩

/-- A record returned by a `200` of an update has the shape the handlers
write, when the stored record it replaces had a boolean `completed`. -/
theorem updated_shape {now : Nat} {id : String} {body : Body} {file : List Todo} {r : Todo}
    (h : (putTodos now id body file).response = .updated r)
    (hfile : ∀ old ∈ file, ∃ b, old.completed = .bool b) : writtenShape r = true := by
  obtain ⟨i, old, -, ho, ht, hc, ha, -⟩ := putTodos_updated h
  obtain ⟨htitle, hdesc, hcomp, -, -, -⟩ := applyUpdate_some ha
  obtain ⟨s, hs, hne, htrim⟩ := trimIfTruthy_title ht
  rw [htrim] at htitle
  simp only [Option.some.injEq] at htitle
  rw [writtenShape_iff]
  refine ⟨⟨jsTrim s, htitle.symm, hne, jsTrim_idem s⟩, ?_, trimIfTruthy_description hdesc⟩
  rw [hcomp]
  by_cases hu : body.completed = .undefined
  · have : (mergeUpdate old body).completed = old.completed := by
      simp [mergeUpdate, hu]
    rw [this]
    exact hfile old (List.getElem?_mem ho)
  · apply completed_bool_of hc
    simp only [mergeUpdate]
    rw [if_pos (by simpa using hu)]
    exact hu

theorem writtenShape_valid {r : Todo} (h : writtenShape r = true) : validRecord r = true := by
  obtain ⟨⟨s, hs, hne, htr⟩, ⟨b, hb⟩, -⟩ := (writtenShape_iff r).mp h
  simp [validRecord, hasValidTitle, hasBooleanCompleted, titleViolated, hs, hb, htr, hne]

theorem validRecord_completed {r : Todo} (h : validRecord r = true) :
    ∃ b, r.completed = .bool b := by
  simp only [validRecord, hasBooleanCompleted, Bool.and_eq_true] at h
  cases hc : r.completed with
  | bool b => exact ⟨b, rfl⟩
  | _ => simp [hc] at h

/-- Every record of a persisted collection has the shape the handlers write. -/
theorem persisted_shape {file : List Todo} (h : Persisted file) :
    ∀ r ∈ file, writtenShape r = true := by
  induction h with
  | initial => simp
  | step req file _ ih =>
    intro r hr
    rcases mem_persisted_handle hr with h | ⟨clock, body, -, hc⟩ | ⟨now, id, body, -, hu⟩
    · exact ih r h
    · exact created_shape hc
    · exact updated_shape hu (fun old ho => ((writtenShape_iff old).mp (ih old ho)).2.1)


/-! ## Validation (C4) -/

/-- C4: a `POST /todos` whose title is missing, not a string or empty after
trimming, and whose `completed` is present and not a boolean, is answered with
`400` and a details list holding both the title message and the completed
message, and writes nothing; and `validateTodo` returns one message per violated
rule, the title message exactly when the title is invalid and the completed
message exactly when `completed` is defined and not a boolean. -/
theorem create_reports_every_violation (clock : CreateClock) (body : Body) (file : List Todo)
    (ht : titleViolated body.title = true) (hc : completedViolated body.completed = true) :
    postTodos clock body file =
      { response := .validationFailed [titleMessage, completedMessage], written := none } ∧
    (postTodos clock body file).response.status = 400 ∧
    persisted file (postTodos clock body file) = file ∧
    ∀ todo : Todo,
      validateTodo todo =
        (if titleViolated todo.title then [titleMessage] else []) ++
        (if completedViolated todo.completed then [completedMessage] else []) ∧
      (titleMessage ∈ validateTodo todo ↔ titleViolated todo.title = true) ∧
      (completedMessage ∈ validateTodo todo ↔ completedViolated todo.completed = true) := by
  have hne : body.completed ≠ .undefined := by
    intro h
    rw [h] at hc
    simp [completedViolated] at hc
  have hv : validateTodo (todoData body) = [titleMessage, completedMessage] := by
    rw [validateTodo_eq]
    simp [todoData, hne, ht, hc]
  have hpos : (validateTodo (todoData body)).length > 0 := by
    rw [hv]; simp
  have hout := @postTodos_invalid clock body file hpos
  rw [hv] at hout
  refine ⟨hout, by rw [hout]; rfl, by rw [hout]; rfl, ?_⟩
  intro todo
  have hmsg : titleMessage ≠ completedMessage := by decide
  refine ⟨validateTodo_eq todo, ?_, ?_⟩
  · rw [validateTodo_eq]
    cases titleViolated todo.title <;> cases completedViolated todo.completed <;>
      simp [hmsg]
  · rw [validateTodo_eq]
    cases titleViolated todo.title <;> cases completedViolated todo.completed <;>
      simp [hmsg, Ne.symm hmsg]

theorem create_reports_every_violation_witness :
    titleViolated twoViolationsBody.title = true ∧
    completedViolated twoViolationsBody.completed = true ∧
    postTodos ⟨1000, 1000, 1000⟩ twoViolationsBody [] =
      { response := .validationFailed [titleMessage, completedMessage], written := none } :=
  ⟨by decide, by decide,
    (create_reports_every_violation ⟨1000, 1000, 1000⟩ twoViolationsBody []
      (by decide) (by decide)).1⟩

/-! ## Stored-record validity (C5) -/

/-- C5: if every record of the persisted collection has a string title that is
non-empty after trimming and a boolean `completed`, then after any request with
any body, accepted or rejected, every record of the persisted collection still
has both; and an update that supplies an empty or whitespace-only title writes
nothing: it is answered with `404` when the id is unknown and otherwise with a
`400` whose details hold the title message. -/
theorem stored_records_stay_valid (file : List Todo)
    (h : ∀ r ∈ file, validRecord r = true) :
    (∀ (req : Request), ∀ r ∈ persisted file (handle req file), validRecord r = true) ∧
    (∀ (now : Nat) (id : String) (body : Body) (s : String),
      body.title = .str s → jsTrim s = "" →
        persisted file (putTodos now id body file) = file ∧
        (putTodos now id body file).written = none ∧
        ((putTodos now id body file).response = .notFound ∨
          ∃ details, (putTodos now id body file).response = .validationFailed details ∧
            titleMessage ∈ details)) := by
  constructor
  · intro req r hr
    rcases mem_persisted_handle hr with hm | ⟨clock, body, -, hc⟩ | ⟨now, id, body, -, hu⟩
    · exact h r hm
    · exact writtenShape_valid (created_shape hc)
    · exact writtenShape_valid
        (updated_shape hu (fun old ho => validRecord_completed (h old ho)))
  · intro now id body s hs htrim
    cases hf : findIndex id file with
    | none =>
      rw [putTodos_notFound hf]
      exact ⟨rfl, rfl, Or.inl rfl⟩
    | some i =>
      obtain ⟨old, ho, -, -⟩ := findIndex_some hf
      have htv : titleViolated (mergeUpdate old body).title = true := by
        simp [mergeUpdate, hs, titleViolated, htrim]
      have hmem : titleMessage ∈ validateTodo (mergeUpdate old body) := by
        rw [validateTodo_eq, htv]
        simp
      have hpos : (validateTodo (mergeUpdate old body)).length > 0 :=
        List.length_pos_of_mem hmem
      rw [putTodos_invalid hf ho hpos]
      exact ⟨rfl, rfl, Or.inr ⟨_, rfl, hmem⟩⟩

theorem stored_records_stay_valid_witness :
    (∀ r ∈ [sampleTodo], validRecord r = true) ∧
    (persisted [sampleTodo]
      (handle (.update 5 "1" onlyCompletedBody) [sampleTodo])).all validRecord = true :=
  ⟨by decide, List.all_eq_true.mpr
    ((stored_records_stay_valid [sampleTodo] (by decide)).1 (.update 5 "1" onlyCompletedBody))⟩

/-! ## Unknown ids (C9) -/

/-- C9: for every collection, every id that is not exactly equal to the `id` of
any record in it, and every body, `PUT /todos/:id` and `DELETE /todos/:id` are
both answered with `404 Todo not found` and write nothing, so the persisted
collection is unchanged. -/
theorem unknown_id_not_found (file : List Todo) (id : String) (now : Nat) (body : Body)
    (h : ∀ r ∈ file, r.id ≠ .str id) :
    putTodos now id body file = { response := .notFound, written := none } ∧
    deleteTodos id file = { response := .notFound, written := none } ∧
    (putTodos now id body file).response.status = 404 ∧
    (deleteTodos id file).response.status = 404 ∧
    persisted file (putTodos now id body file) = file ∧
    persisted file (deleteTodos id file) = file := by
  have hf := findIndex_none.mpr h
  rw [putTodos_notFound hf, deleteTodos_notFound hf]
  exact ⟨rfl, rfl, rfl, rfl, rfl, rfl⟩

theorem unknown_id_not_found_witness :
    (∀ r ∈ [lowerCaseTodo], r.id ≠ .str "ABC") ∧
    putTodos 5 "ABC" onlyCompletedBody [lowerCaseTodo] =
      { response := .notFound, written := none } :=
  ⟨by decide, (unknown_id_not_found [lowerCaseTodo] "ABC" 5 onlyCompletedBody (by decide)).1⟩

/-! ## Order preservation (C7) -/

/-- C7: a successful update leaves the persisted collection with the same
length, every record at an index other than the target index identical, and the
record at the target index with the same `id` and `createdAt`; a successful
delete leaves the original sequence with the single record at the matched index
removed, the remaining records in their original relative order. -/
theorem update_delete_preserve_order (file : List Todo)
    (now : Nat) (idU : String) (body : Body) (result : Todo)
    (idD : String) (removed : Todo)
    (hu : (putTodos now idU body file).response = .updated result)
    (hd : (deleteTodos idD file).response = .deleted removed) :
    (∃ i old, findIndex idU file = some i ∧ file[i]? = some old ∧
      (persisted file (putTodos now idU body file)).length = file.length ∧
      (∀ j, j ≠ i → (persisted file (putTodos now idU body file))[j]? = file[j]?) ∧
      (persisted file (putTodos now idU body file))[i]? = some result ∧
      result.id = old.id ∧ result.createdAt = old.createdAt) ∧
    (∃ i, findIndex idD file = some i ∧ file[i]? = some removed ∧
      persisted file (deleteTodos idD file) = file.take i ++ file.drop (i + 1) ∧
      (persisted file (deleteTodos idD file)).Sublist file) := by
  constructor
  · obtain ⟨i, old, hf, ho, -, -, ha, hw⟩ := putTodos_updated hu
    obtain ⟨-, -, -, hid, hcr, -⟩ := applyUpdate_some ha
    have hlt : i < file.length := by
      rcases List.getElem?_eq_some_iff.mp ho with ⟨hlt, -⟩
      exact hlt
    refine ⟨i, old, hf, ho, ?_, ?_, ?_, hid, hcr⟩
    · simp [persisted, hw]
    · intro j hj
      simp [persisted, hw, List.getElem?_set_ne (Ne.symm hj)]
    · simp [persisted, hw, List.getElem?_set_self hlt]
  · obtain ⟨i, hf, ho, hw⟩ := deleteTodos_deleted hd
    refine ⟨i, hf, ho, ?_, ?_⟩
    · simp [persisted, hw, List.eraseIdx_eq_take_drop_succ]
    · simp only [persisted, hw, Option.getD_some]
      exact List.eraseIdx_sublist file i

theorem update_delete_preserve_order_witness :
    (putTodos 1700000000000 "1" onlyCompletedBody [lowerCaseTodo, sampleTodo]).response =
      .updated completedSampleTodo ∧
    (deleteTodos "abc" [lowerCaseTodo, sampleTodo]).response = .deleted lowerCaseTodo ∧
    (∃ i old, findIndex "1" [lowerCaseTodo, sampleTodo] = some i ∧
      [lowerCaseTodo, sampleTodo][i]? = some old ∧
      (persisted [lowerCaseTodo, sampleTodo]
        (putTodos 1700000000000 "1" onlyCompletedBody [lowerCaseTodo, sampleTodo])).length =
        [lowerCaseTodo, sampleTodo].length ∧
      (∀ j, j ≠ i → (persisted [lowerCaseTodo, sampleTodo]
        (putTodos 1700000000000 "1" onlyCompletedBody [lowerCaseTodo, sampleTodo]))[j]? =
          [lowerCaseTodo, sampleTodo][j]?) ∧
      (persisted [lowerCaseTodo, sampleTodo]
        (putTodos 1700000000000 "1" onlyCompletedBody [lowerCaseTodo, sampleTodo]))[i]? =
          some completedSampleTodo ∧
      completedSampleTodo.id = old.id ∧ completedSampleTodo.createdAt = old.createdAt) :=
  ⟨by decide, by decide,
    (update_delete_preserve_order [lowerCaseTodo, sampleTodo] 1700000000000 "1"
      onlyCompletedBody completedSampleTodo "abc" lowerCaseTodo (by decide) (by decide)).1⟩

/-! ## Partial update (C6) -/

/-- C6: for every persisted collection and every id of a record in it, an
update whose body supplies only a boolean `completed` succeeds; the updated
record has exactly the title and the description the stored record had before
the call, the supplied `completed`, and the current instant as `updatedAt`. The
stored record is the first one with that id, which is the one the handler
replaces. -/
theorem completed_only_update_keeps_fields (file : List Todo) (hp : Persisted file)
    (id : String) (now : Nat) (b : Bool) (h : ∃ r ∈ file, r.id = .str id) :
    ∃ i old result, findIndex id file = some i ∧ file[i]? = some old ∧ old.id = .str id ∧
      putTodos now id
          { title := .undefined, description := .undefined, completed := .bool b } file =
        { response := .updated result, written := some (file.set i result) } ∧
      result.title = old.title ∧ result.description = old.description ∧
      result.completed = .bool b ∧ result.updatedAt = .str (toISOString now) ∧
      result.id = old.id ∧ result.createdAt = old.createdAt := by
  obtain ⟨i, hf⟩ := findIndex_of_mem h
  obtain ⟨old, ho, hid, -⟩ := findIndex_some hf
  have hshape := persisted_shape hp old (List.getElem?_mem ho)
  obtain ⟨⟨s, hs, hne, htr⟩, -, hdesc⟩ := (writtenShape_iff old).mp hshape
  have hmerge : mergeUpdate old
      { title := .undefined, description := .undefined, completed := .bool b } =
      { old with completed := .bool b } := by
    simp [mergeUpdate]
  have hvalid : validateTodo { old with completed := .bool b } = [] := by
    rw [validateTodo_nil_iff]
    simp [hs, titleViolated, htr, hne, completedViolated]
  have hv : ¬ (validateTodo (mergeUpdate old
      { title := .undefined, description := .undefined, completed := .bool b })).length > 0 := by
    rw [hmerge, hvalid]; simp
  have h1 : trimIfTruthy old.title = some old.title := by
    have hb : (s != "") = true := bne_iff_ne.mpr hne
    simp [hs, trimIfTruthy, truthy, hb, callTrim, htr]
  have h2 : trimIfTruthy old.description = some old.description := by
    rcases hdesc with ⟨d, hd, hdt⟩ | hfalsy
    · by_cases hdn : d = ""
      · simp [hd, hdn, trimIfTruthy, truthy]
      · have hb : (d != "") = true := bne_iff_ne.mpr hdn
        simp [hd, trimIfTruthy, truthy, hb, callTrim, hdt]
    · simp [trimIfTruthy, hfalsy]
  have happly : applyUpdate now old
      { title := .undefined, description := .undefined, completed := .bool b } =
      some { old with completed := .bool b, updatedAt := .str (toISOString now) } := by
    simp only [applyUpdate, hmerge, h1, h2]
  refine ⟨i, old, { old with completed := .bool b, updatedAt := .str (toISOString now) },
    hf, ho, hid, ?_, rfl, rfl, rfl, rfl, rfl, rfl⟩
  rw [putTodos_valid hf ho hv, happly]

theorem completed_only_update_keeps_fields_witness :
    Persisted (persisted [] (handle (.create ⟨1000, 1000, 1000⟩ paddedTitleBody) [])) ∧
    (∃ r ∈ persisted [] (handle (.create ⟨1000, 1000, 1000⟩ paddedTitleBody) []),
      r.id = .str "1000") ∧
    ∃ i old result,
      findIndex "1000"
        (persisted [] (handle (.create ⟨1000, 1000, 1000⟩ paddedTitleBody) [])) = some i ∧
      (persisted [] (handle (.create ⟨1000, 1000, 1000⟩ paddedTitleBody) []))[i]? = some old ∧
      old.id = .str "1000" ∧
      putTodos 2000 "1000"
          { title := .undefined, description := .undefined, completed := .bool true }
          (persisted [] (handle (.create ⟨1000, 1000, 1000⟩ paddedTitleBody) [])) =
        { response := .updated result,
          written := some
            ((persisted [] (handle (.create ⟨1000, 1000, 1000⟩ paddedTitleBody) [])).set
              i result) } ∧
      result.title = old.title ∧ result.description = old.description ∧
      result.completed = .bool true ∧ result.updatedAt = .str (toISOString 2000) ∧
      result.id = old.id ∧ result.createdAt = old.createdAt :=
  ⟨Persisted.step _ _ Persisted.initial, by decide,
    completed_only_update_keeps_fields _ (Persisted.step _ _ Persisted.initial)
      "1000" 2000 true (by decide)⟩


/-! ## Identifiers taken from the clock (C1, C8) -/

/-- C1: two `POST /todos` handled at the same millisecond, starting from the
empty collection (whose ids are pairwise distinct), both succeed with `201`, and
the persisted collection then holds two records with the same `id`: the handler
takes the id from `Date.now()` and never compares it with the ids already
stored. -/
theorem same_millisecond_creates_share_id :
    idsDistinct [] ∧
    (postTodos (clockAt 1700000000000) paddedTitleBody []).response.status = 201 ∧
    (postTodos (clockAt 1700000000000) walkDogBody afterFirstCreate).response.status = 201 ∧
    afterSecondCreate.map Todo.id = [.str "1700000000000", .str "1700000000000"] ∧
    ¬ idsDistinct afterSecondCreate := by
  decide

/-- C8: on the two-record collection that two same-millisecond creates
persist, `DELETE /todos/1700000000000` succeeds and returns the first record,
and leaves one record, but that record has the deleted id, and a second delete
with the same id succeeds again instead of answering `404`. -/
theorem delete_leaves_duplicate_id :
    afterSecondCreate.length = 2 ∧
    (∃ r ∈ afterSecondCreate, r.id = .str "1700000000000") ∧
    (deleteTodos "1700000000000" afterSecondCreate).response = .deleted firstCreated ∧
    afterFirstDelete.length = 1 ∧
    (∃ r ∈ afterFirstDelete, r.id = .str "1700000000000") ∧
    (deleteTodos "1700000000000" afterFirstDelete).response = .deleted secondCreated ∧
    (deleteTodos "1700000000000" afterFirstDelete).response ≠ .notFound := by
  decide

/-! ## Creation (C2, C3) -/

/-- C2: a `POST /todos` whose title is a string that is non-empty after
trimming and whose `completed` is absent, but whose description is the number
`5`, is answered with `500 Failed to create todo` and writes nothing: the
handler calls `trim()` on every truthy description, and a number has none. -/
theorem create_with_number_description_fails :
    titleViolated numberDescriptionBody.title = false ∧
    numberDescriptionBody.completed = .undefined ∧
    postTodos (clockAt 1700000000000) numberDescriptionBody [sampleTodo] =
      { response := .failed "Failed to create todo", written := none } ∧
    (postTodos (clockAt 1700000000000) numberDescriptionBody [sampleTodo]).response.status = 500 ∧
    persisted [sampleTodo] (postTodos (clockAt 1700000000000) numberDescriptionBody [sampleTodo]) =
      [sampleTodo] := by
  decide

/-- C3: a `POST /todos` during which the clock advances by one millisecond
between the `new Date()` of `createdAt` and the `new Date()` of `updatedAt`
succeeds, and a `GET /todos` issued right after returns the created record as
`POST` returned it, but its `createdAt` differs from its `updatedAt`. -/
theorem create_reads_clock_twice :
    (postTodos tickingClock paddedTitleBody []).response = .created tickCreated ∧
    (getTodos (persisted [] (postTodos tickingClock paddedTitleBody []))).response =
      .listed [tickCreated] 1 ∧
    tickCreated.createdAt = .str "2023-11-14T22:13:20.000Z" ∧
    tickCreated.updatedAt = .str "2023-11-14T22:13:20.001Z" ∧
    tickCreated.createdAt ≠ tickCreated.updatedAt := by
  decide

/-! ## Description of a stored record (C10) -/

/-- C10: on a collection whose only record has the trimmed description `""`, a
`PUT /todos/1` with the body `{description: null}` succeeds and persists the
record with the description `null`, which is not a string: the handler trims
the description only when it is truthy, where `POST /todos` stores `""` for
every falsy description. -/
theorem update_stores_null_description :
    (∀ r ∈ [sampleTodo], hasTrimmedDescription r = true) ∧
    (putTodos 1700000000000 "1" nullDescriptionBody [sampleTodo]).response.status = 200 ∧
    (persisted [sampleTodo]
      (putTodos 1700000000000 "1" nullDescriptionBody [sampleTodo])).map Todo.description =
        [.null] ∧
    ¬ (∀ r ∈ persisted [sampleTodo]
        (putTodos 1700000000000 "1" nullDescriptionBody [sampleTodo]),
      hasTrimmedDescription r = true) := by
  decide


/-! ## What holds around the failing inputs -/

/-- A `POST /todos` with a valid title, an absent or boolean `completed`, and a
description that is a string or falsy, is answered with `201` and appends the
new record to the loaded collection. -/
theorem postTodos_accepts (clock : CreateClock) (body : Body) (file : List Todo)
    (ht : titleViolated body.title = false) (hc : completedViolated body.completed = false)
    (hd : truthy body.description = false ∨ ∃ d, body.description = .str d) :
    ∃ r, postTodos clock body file =
        { response := .created r, written := some (file ++ [r]) } ∧
      callTrim body.title = some r.title ∧
      r.description =
        (match body.description with
         | .str d => .str (jsTrim d)
         | _ => .str "") ∧
      r.completed = (if body.completed = .undefined then .bool false else body.completed) ∧
      r.id = .str (nowToString clock.idNow) ∧
      r.createdAt = .str (toISOString clock.createdNow) ∧
      r.updatedAt = .str (toISOString clock.updatedNow) := by
  obtain ⟨s, hs, hne⟩ := titleViolated_false ht
  have hc2 : completedViolated (todoData body).completed = false := by
    simp only [todoData]
    split_ifs with hu
    · rfl
    · exact hc
  have hv : ¬ (validateTodo (todoData body)).length > 0 := by
    have : validateTodo (todoData body) = [] :=
      (validateTodo_nil_iff _).mpr ⟨ht, hc2⟩
    rw [this]; simp
  have hdesc : (if truthy body.description then callTrim body.description
      else some (.str "")) =
      some (match body.description with
         | .str d => .str (jsTrim d)
         | _ => .str "") := by
    rcases hd with hfalsy | ⟨d, hd⟩
    · rw [if_neg (by simp [hfalsy])]
      cases hb : body.description with
      | str d =>
        rw [hb] at hfalsy
        have hd0 : d = "" := by simpa [truthy] using hfalsy
        subst hd0
        simp [jsTrim_empty]
      | _ => rfl
    · rw [hd]
      by_cases hdn : d = ""
      · subst hdn
        simp [truthy, jsTrim_empty]
      · have hb : (d != "") = true := bne_iff_ne.mpr hdn
        simp [truthy, hb, callTrim]
  have h1 : callTrim body.title = some (.str (jsTrim s)) := by
    rw [hs]; rfl
  have hnew : newTodo clock body = some
      { id := .str (nowToString clock.idNow),
        title := .str (jsTrim s),
        description := (match body.description with
         | .str d => .str (jsTrim d)
         | _ => .str ""),
        completed := (todoData body).completed,
        createdAt := .str (toISOString clock.createdNow),
        updatedAt := .str (toISOString clock.updatedNow) } := by
    unfold newTodo
    rw [h1, hdesc]
  refine ⟨{ id := .str (nowToString clock.idNow),
            title := .str (jsTrim s),
            description := (match body.description with
              | .str d => .str (jsTrim d)
              | _ => .str ""),
            completed := (todoData body).completed,
            createdAt := .str (toISOString clock.createdNow),
            updatedAt := .str (toISOString clock.updatedNow) }, ?_, h1, rfl, rfl, rfl, rfl, rfl⟩
  rw [postTodos_valid hv, hnew]

/-- A `POST /todos` with a valid title and an absent or boolean `completed`
whose description is truthy and not a string is answered with `500` and writes
nothing. -/
theorem postTodos_throws (clock : CreateClock) (body : Body) (file : List Todo)
    (ht : titleViolated body.title = false) (hc : completedViolated body.completed = false)
    (htruthy : truthy body.description = true) (hns : ∀ d, body.description ≠ .str d) :
    postTodos clock body file =
      { response := .failed "Failed to create todo", written := none } := by
  obtain ⟨s, hs, -⟩ := titleViolated_false ht
  have hc2 : completedViolated (todoData body).completed = false := by
    simp only [todoData]
    split_ifs with hu
    · rfl
    · exact hc
  have hv : ¬ (validateTodo (todoData body)).length > 0 := by
    have : validateTodo (todoData body) = [] :=
      (validateTodo_nil_iff _).mpr ⟨ht, hc2⟩
    rw [this]; simp
  have h1 : callTrim body.title = some (.str (jsTrim s)) := by
    rw [hs]; rfl
  have h2 : callTrim body.description = none := by
    cases hb : body.description with
    | str d => exact absurd hb (hns d)
    | _ => rfl
  have hnew : newTodo clock body = none := by
    unfold newTodo
    rw [h1, if_pos htruthy, h2]
  rw [postTodos_valid hv, hnew]

/-- A `POST /todos` keeps the ids pairwise distinct when the decimal string of
its `Date.now()` reading is not yet an id of the collection. -/
theorem postTodos_keeps_ids_distinct (clock : CreateClock) (body : Body) (file : List Todo)
    (hd : idsDistinct file)
    (hfresh : ∀ t ∈ file, t.id ≠ .str (nowToString clock.idNow)) :
    idsDistinct (persisted file (postTodos clock body file)) := by
  unfold persisted
  cases hw : (postTodos clock body file).written with
  | none => exact hd
  | some todos =>
    obtain ⟨r, hr⟩ := postTodos_written hw
    obtain ⟨-, -, hn, hw2⟩ := postTodos_created hr
    obtain ⟨-, -, -, hid, -, -⟩ := newTodo_some hn
    rw [hw] at hw2
    simp only [Option.some.injEq] at hw2
    subst hw2
    simp only [Option.getD_some, idsDistinct, List.map_append, List.map_cons, List.map_nil]
    rw [List.nodup_append]
    refine ⟨hd, List.nodup_singleton _, ?_⟩
    intro a ha hb
    simp only [List.mem_singleton] at hb
    subst hb
    obtain ⟨t, ht, hta⟩ := List.mem_map.mp ha
    exact hfresh t ht (hta.trans hid)

theorem eraseIdx_ids_ne {todos : List Todo} (hd : idsDistinct todos) {i : Nat} {a : Todo}
    (ha : todos[i]? = some a) : ∀ x ∈ todos.eraseIdx i, x.id ≠ a.id := by
  induction todos generalizing i with
  | nil => simp at ha
  | cons t rest ih =>
    simp only [idsDistinct, List.map_cons, List.nodup_cons] at hd
    obtain ⟨hnot, hrest⟩ := hd
    cases i with
    | zero =>
      simp only [List.getElem?_cons_zero, Option.some.injEq] at ha
      subst ha
      intro x hx heq
      exact hnot (List.mem_map.mpr ⟨x, by simpa using hx, heq⟩)
    | succ k =>
      simp only [List.getElem?_cons_succ] at ha
      intro x hx
      simp only [List.eraseIdx_cons_succ, List.mem_cons] at hx
      rcases hx with hx | hx
      · subst hx
        intro heq
        exact hnot (List.mem_map.mpr ⟨a, List.getElem?_mem ha, heq.symm⟩)
      · exact ih hrest ha x hx

/-- On a collection whose ids are pairwise distinct, `DELETE /todos/:id` with
the id of a stored record returns that record, leaves one record fewer, none
with the deleted id, and a second delete with the same id is answered `404`. -/
theorem deleteTodos_removes_id (file : List Todo) (id : String)
    (hd : idsDistinct file) (h : ∃ r ∈ file, r.id = .str id) :
    ∃ i removed, file[i]? = some removed ∧ removed.id = .str id ∧
      deleteTodos id file =
        { response := .deleted removed, written := some (file.eraseIdx i) } ∧
      (persisted file (deleteTodos id file)).length + 1 = file.length ∧
      (∀ r ∈ persisted file (deleteTodos id file), r.id ≠ .str id) ∧
      deleteTodos id (persisted file (deleteTodos id file)) =
        { response := .notFound, written := none } := by
  obtain ⟨i, hf⟩ := findIndex_of_mem h
  obtain ⟨old, ho, hid, -⟩ := findIndex_some hf
  have hlt : i < file.length := (List.getElem?_eq_some_iff.mp ho).1
  have hout := deleteTodos_found hf ho
  have hne : ∀ r ∈ file.eraseIdx i, r.id ≠ .str id := by
    intro r hr
    rw [← hid]
    exact eraseIdx_ids_ne hd ho r hr
  refine ⟨i, old, ho, hid, hout, ?_, ?_, ?_⟩
  · rw [hout]
    simp only [persisted, Option.getD_some, List.length_eraseIdx, if_pos hlt]
    omega
  · rw [hout]
    exact hne
  · rw [hout]
    exact deleteTodos_notFound (findIndex_none.mpr hne)

/-- A `POST /todos` that reads the same millisecond for `createdAt` and for
`updatedAt` returns a record whose two timestamps are equal. -/
theorem postTodos_timestamps_equal {clock : CreateClock} {body : Body} {file : List Todo}
    {r : Todo} (h : (postTodos clock body file).response = .created r)
    (hclock : clock.createdNow = clock.updatedNow) : r.createdAt = r.updatedAt := by
  obtain ⟨-, -, hn, -⟩ := postTodos_created h
  obtain ⟨-, -, -, -, hc, hu⟩ := newTodo_some hn
  rw [hc, hu, hclock]

/-- Descriptions stay trimmed strings under every `POST /todos`, and under
every `PUT /todos/:id` whose body has no description or a string one. -/
theorem descriptions_stay_trimmed (file : List Todo)
    (h : ∀ r ∈ file, hasTrimmedDescription r = true) :
    (∀ clock body, ∀ r ∈ persisted file (postTodos clock body file),
      hasTrimmedDescription r = true) ∧
    (∀ now id body, (body.description = .undefined ∨ ∃ d, body.description = .str d) →
      ∀ r ∈ persisted file (putTodos now id body file), hasTrimmedDescription r = true) := by
  have hstr : ∀ {v w : JSVal}, (∃ d, v = .str d) → trimIfTruthy v = some w →
      ∃ d, w = .str d ∧ jsTrim d = d := by
    intro v w ⟨d, hd⟩ hw
    rcases trimIfTruthy_description hw with hres | hfalsy
    · exact hres
    · subst hd
      unfold trimIfTruthy at hw
      split_ifs at hw with ht
      · simp only [callTrim, Option.some.injEq] at hw
        exact ⟨jsTrim d, hw.symm, jsTrim_idem d⟩
      · simp only [Option.some.injEq] at hw
        subst hw
        have hd0 : d = "" := by simpa [truthy] using hfalsy
        exact ⟨d, rfl, by rw [hd0]; exact jsTrim_empty⟩
  have hof : ∀ {r : Todo}, (∃ d, r.description = .str d ∧ jsTrim d = d) →
      hasTrimmedDescription r = true := by
    intro r ⟨d, hd, ht⟩
    simp [hasTrimmedDescription, hd, ht]
  have hto : ∀ {r : Todo}, hasTrimmedDescription r = true → ∃ d, r.description = .str d := by
    intro r hr
    unfold hasTrimmedDescription at hr
    cases hd : r.description with
    | str d => exact ⟨d, rfl⟩
    | _ => simp [hd] at hr
  constructor
  · intro clock body r hr
    rcases @mem_persisted_handle (.create clock body) file r hr with
      hm | ⟨c, b, heq, hc⟩ | ⟨_, _, _, heq, _⟩
    · exact h r hm
    · cases heq
      have hshape := (writtenShape_iff r).mp (created_shape hc)
      obtain ⟨-, -, hn, -⟩ := postTodos_created hc
      obtain ⟨-, hdesc, -, -, -, -⟩ := newTodo_some hn
      by_cases htr : truthy body.description = true
      · rw [if_pos htr] at hdesc
        cases hb : body.description with
        | str d =>
          rw [hb] at hdesc
          simp only [callTrim, Option.some.injEq] at hdesc
          exact hof ⟨jsTrim d, hdesc.symm, jsTrim_idem d⟩
        | _ => simp [hb, callTrim] at hdesc
      · rw [if_neg htr] at hdesc
        simp only [Option.some.injEq] at hdesc
        exact hof ⟨"", hdesc.symm, jsTrim_empty⟩
    · cases heq
  · intro now id body hb r hr
    rcases @mem_persisted_handle (.update now id body) file r hr with
      hm | ⟨_, _, heq, _⟩ | ⟨n, i, b, heq, hu⟩
    · exact h r hm
    · cases heq
    · cases heq
      obtain ⟨k, old, -, ho, -, -, ha, -⟩ := putTodos_updated hu
      obtain ⟨-, hdesc, -, -, -, -⟩ := applyUpdate_some ha
      apply hof
      apply hstr _ hdesc
      rcases hb with hundef | ⟨d, hd⟩
      · obtain ⟨d, hd⟩ := hto (h old (List.getElem?_mem ho))
        exact ⟨d, by simp [mergeUpdate, hundef, hd]⟩
      · exact ⟨d, by simp [mergeUpdate, hd]⟩


end TodoApi
